import Mathlib

/-!
# Verification of the xserver_autorenew interaction engine

A shallow embedding of `xserver_autorenew.py`. Browser-side effects
(Playwright calls) are modelled by oracle records over an abstract page-state
type `σ`: each primitive either raises (`Except.error ()`) or returns a value
and the successor page state.  A primitive that raises is modelled as leaving
the page state unchanged, matching the reading that a timed-out or failed
Playwright action did not act.  Python `try/except Exception: pass` blocks
appear as matches on the `Except` result that absorb the `error` branch.
-/

namespace XSAR

/-! ## Locator descriptors

A `Loc` names one Playwright lookup used by the click helpers:
`role r n` is `get_by_role(r, name=n, exact=False)`, `text t` is
`get_by_text(t, exact=False)`, and `css sel` is `locator(sel)`. -/

inductive Loc where
  | role (r : String) (name : String)
  | text (t : String)
  | css (sel : String)
deriving DecidableEq, Repr

/-- The four attribute-pattern selectors built from a label `t` in
`click_by_text` / `click_text_global`:
`a:has-text("t")`, `button:has-text("t")`, `input[value*="t"]`,
`label:has-text("t")`. -/
def attrSelectors (t : String) : List String :=
  ["a:has-text(\"" ++ t ++ "\")",
   "button:has-text(\"" ++ t ++ "\")",
   "input[value*=\"" ++ t ++ "\"]",
   "label:has-text(\"" ++ t ++ "\")"]

/-- `try_click(page_or_frame, locator, timeout)`: attempt the click; any
raised fault is absorbed and reported as `false` with the page state
unchanged; on success the page state advances. -/
def try_click {σ : Type} (click : σ → Loc → Except Unit σ) (s : σ) (l : Loc) :
    Bool × σ :=
  match click s l with
  | Except.ok s' => (true, s')
  | Except.error _ => (false, s)

/-- The inner `for r in roles` loop of `click_by_text`: try
`get_by_role(r, name=t)` for each role in order. -/
def clickRolesLoop {σ : Type} (click : σ → Loc → Except Unit σ) (s : σ)
    (t : String) : List String → Bool × σ
  | [] => (false, s)
  | r :: rs =>
    match try_click click s (Loc.role r t) with
    | (true, s') => (true, s')
    | (false, s') => clickRolesLoop click s' t rs

/-- The inner `for sel in [...]` loop of `click_by_text`: try each CSS
selector in order. -/
def clickCssLoop {σ : Type} (click : σ → Loc → Except Unit σ) (s : σ) :
    List String → Bool × σ
  | [] => (false, s)
  | sel :: rest =>
    match try_click click s (Loc.css sel) with
    | (true, s') => (true, s')
    | (false, s') => clickCssLoop click s' rest

/-- `click_by_text(page, texts, roles)`: per label, try the role locators,
then the free-text locator, then the attribute-pattern selectors; first
successful click wins, otherwise move to the next label. -/
def click_by_text {σ : Type} (click : σ → Loc → Except Unit σ) (s : σ)
    (roles : List String) : List String → Bool × σ
  | [] => (false, s)
  | t :: ts =>
    match clickRolesLoop click s t roles with
    | (true, s') => (true, s')
    | (false, s₁) =>
      match try_click click s₁ (Loc.text t) with
      | (true, s') => (true, s')
      | (false, s₂) =>
        match clickCssLoop click s₂ (attrSelectors t) with
        | (true, s') => (true, s')
        | (false, s₃) => click_by_text click s₃ roles ts

/-- The default `roles=("button", "link")` argument of `click_by_text`. -/
def defaultRoles : List String := ["button", "link"]

/-- The per-frame body of `click_text_global`'s frame loop: note it tries
only `get_by_role("button", name=t)` — the `link` role of `click_by_text`
is not attempted inside frames. -/
def clickFrameTexts {σ : Type} (click : σ → Loc → Except Unit σ) (s : σ) :
    List String → Bool × σ
  | [] => (false, s)
  | t :: ts =>
    match try_click click s (Loc.role "button" t) with
    | (true, s') => (true, s')
    | (false, s₁) =>
      match try_click click s₁ (Loc.text t) with
      | (true, s') => (true, s')
      | (false, s₂) =>
        match clickCssLoop click s₂ (attrSelectors t) with
        | (true, s') => (true, s')
        | (false, s₃) => clickFrameTexts click s₃ ts

/-- A page with its embedded frames: `page.frames` is the main frame followed
by the child frames in document order, and `click_text_global`'s loop skips
the main frame, so the loop iterates exactly `childFrames`. -/
structure GPage (σ : Type) where
  main : σ
  childFrames : List σ
deriving DecidableEq, Repr

/-- The frame loop of `click_text_global`: each non-main frame is searched in
document order; a successful click updates that frame's state. -/
def clickFramesGo {σ : Type} (click : σ → Loc → Except Unit σ)
    (texts : List String) : List σ → Bool × List σ
  | [] => (false, [])
  | f :: fs =>
    match clickFrameTexts click f texts with
    | (true, f') => (true, f' :: fs)
    | (false, f₁) =>
      match clickFramesGo click texts fs with
      | (b, fs') => (b, f₁ :: fs')

/-- `click_text_global(page, texts)`: first `click_by_text` on the main
document, then the per-frame search over every non-main frame. -/
def click_text_global {σ : Type} (click : σ → Loc → Except Unit σ)
    (p : GPage σ) (texts : List String) : Bool × GPage σ :=
  match click_by_text click p.main defaultRoles texts with
  | (true, m') => (true, ⟨m', p.childFrames⟩)
  | (false, m₁) =>
    match clickFramesGo click texts p.childFrames with
    | (b, fs') => (b, ⟨m₁, fs'⟩)

/-! ## Spec-side formulations of the fallback chain -/

/-- Try a list of locators in order; the first successful click wins. -/
def tryLocs {σ : Type} (click : σ → Loc → Except Unit σ) (s : σ) :
    List Loc → Bool × σ
  | [] => (false, s)
  | l :: ls =>
    match try_click click s l with
    | (true, s') => (true, s')
    | (false, s') => tryLocs click s' ls

/-- The priority-ordered locator list for one label: role+name matches for
each role, then the unscoped free-text match, then the attribute-pattern
selectors. -/
def labelLocs (roles : List String) (t : String) : List Loc :=
  roles.map (fun r => Loc.role r t) ++ [Loc.text t] ++
    (attrSelectors t).map Loc.css

/-- The full attempt order over a label list: labels in list order, each
expanded to its priority-ordered locators. -/
def chainLocs (roles : List String) (texts : List String) : List Loc :=
  texts.flatMap (labelLocs roles)

/-- Spec-side frame escalation: each frame in document order is searched with
the flattened per-label chain restricted to the `button` role. -/
def framesSearch {σ : Type} (click : σ → Loc → Except Unit σ)
    (texts : List String) : List σ → Bool × List σ
  | [] => (false, [])
  | f :: fs =>
    match tryLocs click f (chainLocs ["button"] texts) with
    | (true, f') => (true, f' :: fs)
    | (false, f₁) =>
      match framesSearch click texts fs with
      | (b, fs') => (b, f₁ :: fs')

/-- Modelled from the spec: the claim that the search repeated inside every
embedded frame is *identical* to the main-document search, i.e. that the
frame loop runs `click_by_text` (roles `button` and `link`) on each frame.
Used only to compare against `click_text_global` as the code has it. -/
def click_text_global_specIdentical {σ : Type}
    (click : σ → Loc → Except Unit σ) (p : GPage σ) (texts : List String) :
    Bool × GPage σ :=
  match click_by_text click p.main defaultRoles texts with
  | (true, m') => (true, ⟨m', p.childFrames⟩)
  | (false, m₁) =>
    match goFrames p.childFrames with
    | (b, fs') => (b, ⟨m₁, fs'⟩)
where
  goFrames : List σ → Bool × List σ
    | [] => (false, [])
    | f :: fs =>
      match click_by_text click f defaultRoles texts with
      | (true, f') => (true, f' :: fs)
      | (false, f₁) =>
        match goFrames fs with
        | (b, fs') => (b, f₁ :: fs')

/-! ## Cookie parsing

`parse_cookie_string` splits on `";"`, strips each segment, drops empty
segments, skips segments with no `"="`, and splits each remaining segment at
its first `"="` into a stripped name and a stripped value.  String processing
is embedded over `List Char` so that every step computes by structural
recursion. -/

/-- Strip leading and trailing whitespace (Python `str.strip`). -/
def stripChars (xs : List Char) : List Char :=
  ((xs.dropWhile Char.isWhitespace).reverse.dropWhile Char.isWhitespace).reverse

/-- Split a character list on a separator character (Python `str.split(c)`):
always returns one (possibly empty) group per separator-delimited segment. -/
def splitOnChar (c : Char) : List Char → List (List Char)
  | [] => [[]]
  | x :: xs =>
    let r := splitOnChar c xs
    if x = c then [] :: r
    else
      match r with
      | [] => [[x]]
      | g :: gs => (x :: g) :: gs

/-- Split at the first occurrence of a character (Python `s.split(c, 1)`),
or `none` when the character does not occur (Python `c not in s`). -/
def breakAtChar (c : Char) : List Char → Option (List Char × List Char)
  | [] => none
  | x :: xs =>
    if x = c then some ([], xs)
    else
      match breakAtChar c xs with
      | none => none
      | some (a, b) => some (x :: a, b)

/-- One cookie record as built by `parse_cookie_string`. -/
structure CookieEntry where
  name : String
  value : String
  domain : String
  path : String
  httpOnly : Bool
  secure : Bool
  sameSite : String
deriving DecidableEq, Repr

/-- The loop body of `parse_cookie_string` on one already-stripped segment:
`continue` when the segment has no `"="`, otherwise split at the first `"="`
and strip name and value. -/
def parseCookieItem (domain : String) (item : List Char) : Option CookieEntry :=
  match breakAtChar '=' item with
  | none => none
  | some (n, v) =>
    some { name := String.mk (stripChars n), value := String.mk (stripChars v),
           domain := domain, path := "/", httpOnly := false, secure := true,
           sameSite := "Lax" }

/-- The accumulation loop of `parse_cookie_string` over the stripped,
non-empty segments. -/
def parseCookieLoop (domain : String) : List (List Char) → List CookieEntry
  | [] => []
  | item :: rest =>
    match parseCookieItem domain item with
    | none => parseCookieLoop domain rest
    | some e => e :: parseCookieLoop domain rest

/-- `parse_cookie_string(cookie_str, domain)`. -/
def parse_cookie_string (cookie_str : String) (domain : String) :
    List CookieEntry :=
  parseCookieLoop domain
    (((splitOnChar ';' cookie_str.toList).map stripChars).filter
      (fun p => ¬ p.isEmpty))

/-! ## Configuration

The environment-derived configuration fields the embedded claims need
(`XSERVER_EMAIL`, `XSERVER_PASSWORD`, `XSERVER_COOKIE`, `TARGET_GAME`). -/

structure Config where
  email : String
  password : String
  cookieStr : String
  targetGame : String
deriving DecidableEq, Repr

def LOGIN_URL : String :=
  "https://secure.xserver.ne.jp/xapanel/login/xserver/?request_page=xmgame%2Findex"

def GAME_INDEX_URL : String :=
  "https://secure.xserver.ne.jp/xapanel/xmgame/index"

/-! ## Authentication -/

/-- Result of one `get_by_label`/`locator` + `fill` attempt in
`password_login`: the field was found and filled, or the locator matched
nothing (`count() == 0`), or a fault was raised and absorbed. -/
inductive FillRes (σ : Type) where
  | filled (s : σ)
  | noField
  | err
deriving Repr

/-- Oracle for the authentication primitives.  `goto` models the raw
`page.goto` call, which is *not* wrapped in a `try` in the source and may
therefore propagate; everything else is absorbed at its call site. -/
structure AuthOps (σ : Type) where
  click : σ → Loc → Except Unit σ
  visible : σ → String → Except Unit Bool
  goto : σ → String → Except Unit σ
  addCookies : σ → List CookieEntry → Except Unit σ
  fillByLabel : σ → String → String → FillRes σ
  fillByCss : σ → String → String → FillRes σ
  pressEnter : σ → σ
  waitIdle : σ → σ

/-- The four logged-in marker fragments probed by `is_logged_in`. -/
def loginMarkers : List String := ["ログアウト", "マイページ", "アカウント", "お知らせ"]

/-- Marker loop of `is_logged_in`: a raised probe is absorbed and treated as
not visible. -/
def markerLoop {σ : Type} (visible : σ → String → Except Unit Bool) (s : σ) :
    List String → Bool
  | [] => false
  | t :: ts =>
    match visible s t with
    | Except.ok true => true
    | _ => markerLoop visible s ts

/-- `is_logged_in(page)`. -/
def is_logged_in {σ : Type} (visible : σ → String → Except Unit Bool)
    (s : σ) : Bool :=
  markerLoop visible s loginMarkers

/-- The two domains cookies are constructed for. -/
def cookieDomains : List String := ["secure.xserver.ne.jp", "www.xserver.ne.jp"]

/-- `cookie_login(context, page)`: empty cookie string or empty parse result
or a failed `add_cookies` give `False`; otherwise navigate to the game index
and check the login markers, then to the login URL and re-check. -/
def cookie_login {σ : Type} (O : AuthOps σ) (cfg : Config) (s : σ) :
    Except Unit (Bool × σ) :=
  if cfg.cookieStr = "" then Except.ok (false, s)
  else
    let all_cookies :=
      cookieDomains.flatMap (fun d => parse_cookie_string cfg.cookieStr d)
    if all_cookies.isEmpty then Except.ok (false, s)
    else
      match O.addCookies s all_cookies with
      | Except.error _ => Except.ok (false, s)
      | Except.ok s₁ =>
        match O.goto s₁ GAME_INDEX_URL with
        | Except.error e => Except.error e
        | Except.ok s₂ =>
          if is_logged_in O.visible s₂ then Except.ok (true, s₂)
          else
            match O.goto s₂ LOGIN_URL with
            | Except.error e => Except.error e
            | Except.ok s₃ =>
              if is_logged_in O.visible s₃ then Except.ok (true, s₃)
              else Except.ok (false, s₃)

/-- Label variants tried for the identifier field of the login form. -/
def emailLabels : List String :=
  ["メールアドレス", "ログインID", "アカウントID", "ID", "メール"]

/-- CSS fallbacks for the identifier field. -/
def emailCssSelectors : List String :=
  ["input[type=\"email\"]", "input[name*=\"mail\"]", "input[id*=\"mail\"]",
   "input[name*=\"login\"]", "input[name*=\"account\"]", "input[name*=\"user\"]",
   "input[name*=\"id\"]", "input[id*=\"login\"]", "input[id*=\"account\"]",
   "input[id*=\"user\"]", "input[id*=\"id\"]"]

/-- Label variants tried for the password field. -/
def passwordLabels : List String := ["パスワード", "Password"]

/-- CSS fallbacks for the password field. -/
def passwordCssSelectors : List String :=
  ["input[type=\"password\"]", "input[name*=\"pass\"]", "input[id*=\"pass\"]"]

/-- Login-button label variants submitted through `click_by_text`. -/
def loginButtonTexts : List String :=
  ["ログイン", "ログインする", "サインイン", "ログオン", "ログインへ"]

/-- One fill loop of `password_login`: first query that reports a field and
fills it wins; misses and raised faults both move to the next query. -/
def fillFirst {σ : Type} (op : σ → String → FillRes σ) (s : σ) :
    List String → Bool × σ
  | [] => (false, s)
  | q :: qs =>
    match op s q with
    | FillRes.filled s' => (true, s')
    | FillRes.noField => fillFirst op s qs
    | FillRes.err => fillFirst op s qs

/-- `password_login(page)`: immediate `False` when either credential is
empty; otherwise navigate to the login page, fill identifier and password
(labels first, CSS fallbacks second), submit via `click_by_text`, press
Enter as a fallback when a password was filled but no button matched, and
report `is_logged_in` on the resulting page. -/
def password_login {σ : Type} (O : AuthOps σ) (cfg : Config) (s : σ) :
    Except Unit (Bool × σ) :=
  if cfg.email = "" ∨ cfg.password = "" then Except.ok (false, s)
  else
    match O.goto s LOGIN_URL with
    | Except.error e => Except.error e
    | Except.ok s₀ =>
      let r₁ := fillFirst (fun s l => O.fillByLabel s l cfg.email) s₀ emailLabels
      let r₂ :=
        if r₁.1 then r₁
        else fillFirst (fun s c => O.fillByCss s c cfg.email) r₁.2 emailCssSelectors
      let r₃ := fillFirst (fun s l => O.fillByLabel s l cfg.password) r₂.2 passwordLabels
      let r₄ :=
        if r₃.1 then r₃
        else fillFirst (fun s c => O.fillByCss s c cfg.password) r₃.2 passwordCssSelectors
      let r₅ := click_by_text O.click r₄.2 defaultRoles loginButtonTexts
      let s₆ := if !r₅.1 && r₄.1 then O.pressEnter r₅.2 else r₅.2
      let s₇ := O.waitIdle s₆
      Except.ok (is_logged_in O.visible s₇, s₇)

/-- Modelled from the spec: the orchestration that combines the two
authentication strategies lives in `main`, which is absent from the provided
source (the file ends inside `do_extend_hours`).  Per the spec, cookie login
is attempted first whenever configured, and credential login is attempted if
and only if cookie login did not verify as authenticated. -/
def establish_session {σ : Type} (O : AuthOps σ) (cfg : Config) (s : σ) :
    Except Unit (Bool × σ) :=
  match cookie_login O cfg s with
  | Except.error e => Except.error e
  | Except.ok (true, s') => Except.ok (true, s')
  | Except.ok (false, s') => password_login O cfg s'

/-! ## Outcome recorder -/

/-- Time oracle for one run of `write_success_md`: whether
`ZoneInfo(tzname)` is importable and resolves, and the `strftime` rendering
of the current instant in that zone resp. in UTC. -/
structure TimeOracle where
  zoneAvailable : String → Bool
  nowIn : String → String
  nowUtc : String

/-- `write_success_md(filepath, tzname)`: append one line
`<timestamp> <zone-label> 成功` to the log, with the configured zone name as
label when the zone resolves and `UTC` otherwise.  The log file is modelled
as its list of lines; opening with mode `"a"` is the append. -/
def write_success_md (T : TimeOracle) (tzname : String)
    (file : List String) : List String :=
  let tzOk := T.zoneAvailable tzname
  let nowS := if tzOk then T.nowIn tzname else T.nowUtc
  let suffix := if tzOk then tzname else "UTC"
  file ++ [nowS ++ " " ++ suffix ++ " 成功"]

/-- The log after `n` consecutive successful runs, run `i` using time oracle
`T i`, starting from the empty log. -/
def runsLog (T : Nat → TimeOracle) (tzname : String) : Nat → List String
  | 0 => []
  | n + 1 => write_success_md (T n) tzname (runsLog T tzname n)

/-! ## Scheduling gate -/

inductive GateDecision where
  | skipTooSoon
  | proceed
deriving DecidableEq, Repr

/-- Modelled from the spec: the scheduling gate is absent from the provided
source (the file ends inside `do_extend_hours`, before `main`).  Per the
spec: read the most recent outcome-record line; when its timestamp is within
the configured minimum interval of the current time and the override flag is
unset, skip; otherwise proceed.  Times are integer hours. -/
def scheduling_gate (lastTs : Option Int) (now : Int) (minIntervalHours : Int)
    (override : Bool) : GateDecision :=
  match lastTs with
  | none => GateDecision.proceed
  | some t =>
    if override = false ∧ now - t < minIntervalHours then GateDecision.skipTooSoon
    else GateDecision.proceed

/-- Modelled from the spec: a skipped run performs no navigation, so its
navigation count is zero; a proceeding run performs the wizard's
navigations. -/
def run_with_gate (lastTs : Option Int) (now : Int) (minIntervalHours : Int)
    (override : Bool) (wizardNavCount : Nat) : GateDecision × Nat :=
  match scheduling_gate lastTs now minIntervalHours override with
  | GateDecision.skipTooSoon => (GateDecision.skipTooSoon, 0)
  | GateDecision.proceed => (GateDecision.proceed, wizardNavCount)

/-! ## Acknowledgment step -/

/-- Oracle for `accept_required_checks`: keyword-label clicks, the checkbox
locator's `count()`, and per-index visibility / checked-state / `check()`
calls, each of which may raise. -/
structure AckOps (σ : Type) where
  labelClick : σ → String → Except Unit σ
  boxCount : σ → Except Unit Nat
  boxVisible : σ → Nat → Except Unit Bool
  boxChecked : σ → Nat → Except Unit Bool
  boxCheck : σ → Nat → Except Unit σ

/-- The agreement keywords whose labels are clicked. -/
def ackKeywords : List String :=
  ["同意", "確認", "承諾", "同意します", "確認しました", "規約", "注意事項"]

/-- The keyword loop: each `label:has-text(k)` click is attempted with its
fault absorbed. -/
def ackLabelPhase {σ : Type} (O : AckOps σ) (s : σ) : List String → σ
  | [] => s
  | k :: ks =>
    match O.labelClick s k with
    | Except.ok s' => ackLabelPhase O s' ks
    | Except.error _ => ackLabelPhase O s ks

/-- One iteration of the checkbox loop: query visibility and checked state
and, when visible and unchecked, check the box; `some s'` when the box was
checked, `none` when nothing happened (not visible, already checked, or a
raised fault absorbed by the per-iteration `try`). -/
def ackBoxStep {σ : Type} (O : AckOps σ) (s : σ) (i : Nat) : Option σ :=
  match O.boxVisible s i with
  | Except.error _ => none
  | Except.ok v =>
    match O.boxChecked s i with
    | Except.error _ => none
    | Except.ok c =>
      if v = true ∧ c = false then
        match O.boxCheck s i with
        | Except.ok s' => some s'
        | Except.error _ => none
      else none

/-- The checkbox loop over the chosen indices, carrying the `clicked`
counter. -/
def ackBoxLoop {σ : Type} (O : AckOps σ) (s : σ) (clicked : Nat) :
    List Nat → σ × Nat
  | [] => (s, clicked)
  | i :: is =>
    match ackBoxStep O s i with
    | some s' => ackBoxLoop O s' (clicked + 1) is
    | none => ackBoxLoop O s clicked is

/-- `accept_required_checks(page)`: click the keyword labels, then check up
to `min(count, 5)` checkboxes; a raised `count()` aborts the checkbox phase
silently.  Returns the final page state and the `clicked` counter. -/
def accept_required_checks {σ : Type} (O : AckOps σ) (s : σ) : σ × Nat :=
  let s₁ := ackLabelPhase O s ackKeywords
  match O.boxCount s₁ with
  | Except.error _ => (s₁, 0)
  | Except.ok cnt => ackBoxLoop O s₁ 0 (List.range (min cnt 5))

/-! ## Management-entry step -/

/-- A row handle inside `open_game_management`: the target row found among
`tbody tr` rows, the target row found among all `tr` rows, or the `i`-th
`tbody tr` row of the escalation loop. -/
inductive RowRef where
  | targetTbody
  | targetAny
  | nth (i : Nat)
deriving DecidableEq, Repr

/-- Oracle for `open_game_management`: row filtering counts, row-scoped and
page-scoped selector queries (`count()` plus `first.is_visible()`), the
corresponding `try_click`s, and the absorbed `wait_for_load_state`. -/
structure GmOps (σ : Type) where
  tbodyTargetCount : σ → String → Except Unit Nat
  anyTargetCount : σ → String → Except Unit Nat
  rowQuery : σ → RowRef → String → Except Unit (Nat × Bool)
  rowClick : σ → RowRef → String → Except Unit σ
  pageQuery : σ → String → Except Unit (Nat × Bool)
  pageClick : σ → String → Except Unit σ
  tbodyRowCount : σ → Except Unit Nat
  waitIdle : σ → σ

/-- The five row-scoped selectors of `click_row_btn`. -/
def rowBtnSelectors : List String :=
  ["button:has-text(\"ゲーム管理\")",
   "[role=\"button\"]:has-text(\"ゲーム管理\")",
   "a:has-text(\"ゲーム管理\")",
   ":is(button,a,div,span)[class*=\"btn\"]:has-text(\"ゲーム管理\")",
   ":is(button,a,div,span):has-text(\"ゲーム管理\")"]

/-- The six page-level selectors tried when no target row was clicked; the
first three are scoped to the first row that offers the action. -/
def gmPageSelectors : List String :=
  ["tbody tr:has(button:has-text(\"ゲーム管理\")) >> button:has-text(\"ゲーム管理\")",
   "tbody tr:has([role=\"button\"]:has-text(\"ゲーム管理\")) >> [role=\"button\"]:has-text(\"ゲーム管理\")",
   "tbody tr:has(a:has-text(\"ゲーム管理\")) >> a:has-text(\"ゲーム管理\")",
   "button:has-text(\"ゲーム管理\")",
   "[role=\"button\"]:has-text(\"ゲーム管理\")",
   "a:has-text(\"ゲーム管理\")"]

/-- The selector loop of `click_row_btn(row)`: on the first selector whose
query succeeds with a visible match, return that single `try_click`'s result
(a failed click does *not* move to the next selector); raised queries move
on. -/
def clickRowBtnGo {σ : Type} (O : GmOps σ) (s : σ) (r : RowRef) :
    List String → Bool × σ
  | [] => (false, s)
  | sel :: rest =>
    match O.rowQuery s r sel with
    | Except.ok (cnt, vis) =>
      if 0 < cnt ∧ vis = true then
        match O.rowClick s r sel with
        | Except.ok s' => (true, s')
        | Except.error _ => (false, s)
      else clickRowBtnGo O s r rest
    | Except.error _ => clickRowBtnGo O s r rest

/-- `click_row_btn(row)`. -/
def click_row_btn {σ : Type} (O : GmOps σ) (s : σ) (r : RowRef) : Bool × σ :=
  clickRowBtnGo O s r rowBtnSelectors

/-- The target-row lookup: `tbody tr` rows filtered by the target text
first, then all `tr` rows; any raised query leaves the target unset, and an
empty target skips the lookup. -/
def findTargetRow {σ : Type} (O : GmOps σ) (s : σ) (target : String) :
    Option RowRef :=
  if target = "" then none
  else
    match O.tbodyTargetCount s target with
    | Except.error _ => none
    | Except.ok n =>
      if 0 < n then some RowRef.targetTbody
      else
        match O.anyTargetCount s target with
        | Except.error _ => none
        | Except.ok m => if 0 < m then some RowRef.targetAny else none

/-- The page-level selector loop: the first selector whose query succeeds
with a visible match and whose click succeeds wins; a failed click moves to
the next selector. -/
def gmPagePhaseGo {σ : Type} (O : GmOps σ) (s : σ) : List String → Bool × σ
  | [] => (false, s)
  | sel :: rest =>
    match O.pageQuery s sel with
    | Except.ok (cnt, vis) =>
      if 0 < cnt ∧ vis = true then
        match O.pageClick s sel with
        | Except.ok s' => (true, O.waitIdle s')
        | Except.error _ => gmPagePhaseGo O s rest
      else gmPagePhaseGo O s rest
    | Except.error _ => gmPagePhaseGo O s rest

/-- The page-level phase over `gmPageSelectors`. -/
def gmPagePhase {σ : Type} (O : GmOps σ) (s : σ) : Bool × σ :=
  gmPagePhaseGo O s gmPageSelectors

/-- The escalation loop over the first `min(count, 10)` `tbody tr` rows. -/
def gmEscalateGo {σ : Type} (O : GmOps σ) (s : σ) : List Nat → Bool × σ
  | [] => (false, s)
  | i :: is =>
    match click_row_btn O s (RowRef.nth i) with
    | (true, s') => (true, O.waitIdle s')
    | (false, s₁) => gmEscalateGo O s₁ is

/-- The escalation phase: count the `tbody tr` rows (a raised count aborts
the phase) and walk the first `min(count, 10)` rows. -/
def gmEscalate {σ : Type} (O : GmOps σ) (s : σ) : Bool × σ :=
  match O.tbodyRowCount s with
  | Except.error _ => (false, s)
  | Except.ok cnt => gmEscalateGo O s (List.range (min cnt 10))

/-- The fallback run after the target phase: page-level selectors, then the
escalation loop, then not-found. -/
def gmFallback {σ : Type} (O : GmOps σ) (s : σ) : Bool × σ :=
  match gmPagePhase O s with
  | (true, s') => (true, s')
  | (false, s₁) => gmEscalate O s₁

/-- `open_game_management(page)`: the target row (when configured and
matched) is clicked first; otherwise the page-level selectors and then the
bounded escalation loop run; `False` when everything failed. -/
def open_game_management {σ : Type} (O : GmOps σ) (cfg : Config) (s : σ) :
    Bool × σ :=
  match findTargetRow O s cfg.targetGame with
  | some r =>
    match click_row_btn O s r with
    | (true, s') => (true, O.waitIdle s')
    | (false, s₁) => gmFallback O s₁
  | none => gmFallback O s

/-! ## Helper lemmas on the fallback chain -/

lemma try_click_of_ok {σ : Type} (click : σ → Loc → Except Unit σ) (s s' : σ)
    (l : Loc) (h : click s l = Except.ok s') :
    try_click click s l = (true, s') := by
  simp [try_click, h]

lemma try_click_of_error {σ : Type} (click : σ → Loc → Except Unit σ) (s : σ)
    (l : Loc) (e : Unit) (h : click s l = Except.error e) :
    try_click click s l = (false, s) := by
  simp [try_click, h]

lemma tryLocs_cons_ok {σ : Type} (click : σ → Loc → Except Unit σ)
    (s s' : σ) (l : Loc) (ls : List Loc) (h : click s l = Except.ok s') :
    tryLocs click s (l :: ls) = (true, s') := by
  simp [tryLocs, try_click, h]

lemma tryLocs_cons_err {σ : Type} (click : σ → Loc → Except Unit σ) (s : σ)
    (l : Loc) (ls : List Loc) (e : Unit) (h : click s l = Except.error e) :
    tryLocs click s (l :: ls) = tryLocs click s ls := by
  simp [tryLocs, try_click, h]

lemma tryLocs_append_ok {σ : Type} (click : σ → Loc → Except Unit σ)
    (s s' : σ) (xs ys : List Loc) (h : tryLocs click s xs = (true, s')) :
    tryLocs click s (xs ++ ys) = (true, s') := by
  induction xs generalizing s with
  | nil => simp [tryLocs] at h
  | cons l ls ih =>
    simp only [tryLocs] at h ⊢
    cases hc : click s l with
    | ok s₁ => simp [try_click, hc] at h ⊢; exact h
    | error e => simp [try_click, hc] at h ⊢; exact ih _ h

lemma tryLocs_append_fail {σ : Type} (click : σ → Loc → Except Unit σ)
    (s s' : σ) (xs ys : List Loc) (h : tryLocs click s xs = (false, s')) :
    tryLocs click s (xs ++ ys) = tryLocs click s' ys := by
  induction xs generalizing s with
  | nil => simp [tryLocs] at h; simp [h]
  | cons l ls ih =>
    simp only [tryLocs] at h ⊢
    cases hc : click s l with
    | ok s₁ => simp [try_click, hc] at h
    | error e => simp [try_click, hc] at h ⊢; exact ih _ h

lemma tryLocs_fail_state {σ : Type} (click : σ → Loc → Except Unit σ)
    (s s' : σ) (ls : List Loc) (h : tryLocs click s ls = (false, s')) :
    s' = s := by
  induction ls generalizing s with
  | nil => simp [tryLocs] at h; exact h.symm
  | cons l ls ih =>
    simp only [tryLocs] at h
    cases hc : click s l with
    | ok s₁ => simp [try_click, hc] at h
    | error e => simp [try_click, hc] at h; exact ih _ h

lemma clickRolesLoop_eq_tryLocs {σ : Type} (click : σ → Loc → Except Unit σ)
    (s : σ) (t : String) (roles : List String) :
    clickRolesLoop click s t roles =
      tryLocs click s (roles.map (fun r => Loc.role r t)) := by
  induction roles generalizing s with
  | nil => simp [clickRolesLoop, tryLocs]
  | cons r rs ih =>
    simp only [clickRolesLoop, tryLocs, List.map_cons]
    cases hc : click s (Loc.role r t) with
    | ok s₁ => simp [try_click, hc]
    | error e => simp [try_click, hc, ih]

lemma clickCssLoop_eq_tryLocs {σ : Type} (click : σ → Loc → Except Unit σ)
    (s : σ) (sels : List String) :
    clickCssLoop click s sels = tryLocs click s (sels.map Loc.css) := by
  induction sels generalizing s with
  | nil => simp [clickCssLoop, tryLocs]
  | cons c cs ih =>
    simp only [clickCssLoop, tryLocs, List.map_cons]
    cases hc : click s (Loc.css c) with
    | ok s₁ => simp [try_click, hc]
    | error e => simp [try_click, hc, ih]

lemma click_by_text_cons {σ : Type} (click : σ → Loc → Except Unit σ)
    (s : σ) (roles : List String) (t : String) (ts : List String) :
    click_by_text click s roles (t :: ts) =
      match clickRolesLoop click s t roles with
      | (true, s') => (true, s')
      | (false, s₁) =>
        match try_click click s₁ (Loc.text t) with
        | (true, s') => (true, s')
        | (false, s₂) =>
          match clickCssLoop click s₂ (attrSelectors t) with
          | (true, s') => (true, s')
          | (false, s₃) => click_by_text click s₃ roles ts := rfl

lemma click_by_text_eq_tryLocs {σ : Type} (click : σ → Loc → Except Unit σ)
    (s : σ) (roles : List String) (texts : List String) :
    click_by_text click s roles texts =
      tryLocs click s (chainLocs roles texts) := by
  induction texts generalizing s with
  | nil => simp [click_by_text, chainLocs, tryLocs]
  | cons t ts ih =>
    have hflat : chainLocs roles (t :: ts) =
        (roles.map (fun r => Loc.role r t) ++
          ([Loc.text t] ++ ((attrSelectors t).map Loc.css ++
            chainLocs roles ts))) := by
      simp [chainLocs, labelLocs, List.flatMap_cons, List.append_assoc]
    rw [hflat, click_by_text_cons, clickRolesLoop_eq_tryLocs]
    cases h₁ : tryLocs click s (roles.map (fun r => Loc.role r t)) with
    | mk b₁ s₁ =>
      cases b₁ with
      | true => rw [tryLocs_append_ok click s s₁ _ _ h₁]
      | false =>
        rw [tryLocs_append_fail click s s₁ _ _ h₁, List.singleton_append]
        dsimp only
        cases hc : click s₁ (Loc.text t) with
        | ok s₂ =>
          rw [try_click_of_ok click s₁ s₂ _ hc,
            tryLocs_cons_ok click s₁ s₂ _ _ hc]
        | error e =>
          rw [try_click_of_error click s₁ _ e hc,
            tryLocs_cons_err click s₁ _ _ e hc]
          dsimp only
          rw [clickCssLoop_eq_tryLocs]
          cases h₂ : tryLocs click s₁ ((attrSelectors t).map Loc.css) with
          | mk b₂ s₂ =>
            cases b₂ with
            | true => rw [tryLocs_append_ok click s₁ s₂ _ _ h₂]
            | false =>
              rw [tryLocs_append_fail click s₁ s₂ _ _ h₂]
              exact ih s₂

lemma clickFrameTexts_cons {σ : Type} (click : σ → Loc → Except Unit σ)
    (s : σ) (t : String) (ts : List String) :
    clickFrameTexts click s (t :: ts) =
      match try_click click s (Loc.role "button" t) with
      | (true, s') => (true, s')
      | (false, s₁) =>
        match try_click click s₁ (Loc.text t) with
        | (true, s') => (true, s')
        | (false, s₂) =>
          match clickCssLoop click s₂ (attrSelectors t) with
          | (true, s') => (true, s')
          | (false, s₃) => clickFrameTexts click s₃ ts := rfl

lemma clickFrameTexts_eq_tryLocs {σ : Type} (click : σ → Loc → Except Unit σ)
    (s : σ) (texts : List String) :
    clickFrameTexts click s texts =
      tryLocs click s (chainLocs ["button"] texts) := by
  induction texts generalizing s with
  | nil => simp [clickFrameTexts, chainLocs, tryLocs]
  | cons t ts ih =>
    have hflat : chainLocs ["button"] (t :: ts) =
        Loc.role "button" t :: (Loc.text t ::
          ((attrSelectors t).map Loc.css ++ chainLocs ["button"] ts)) := by
      simp [chainLocs, labelLocs, List.flatMap_cons]
    rw [hflat, clickFrameTexts_cons]
    cases hc : click s (Loc.role "button" t) with
    | ok s₁ =>
      rw [try_click_of_ok click s s₁ _ hc, tryLocs_cons_ok click s s₁ _ _ hc]
    | error e =>
      rw [try_click_of_error click s _ e hc, tryLocs_cons_err click s _ _ e hc]
      dsimp only
      cases hc₂ : click s (Loc.text t) with
      | ok s₂ =>
        rw [try_click_of_ok click s s₂ _ hc₂,
          tryLocs_cons_ok click s s₂ _ _ hc₂]
      | error e₂ =>
        rw [try_click_of_error click s _ e₂ hc₂,
          tryLocs_cons_err click s _ _ e₂ hc₂]
        dsimp only
        rw [clickCssLoop_eq_tryLocs]
        cases h₂ : tryLocs click s ((attrSelectors t).map Loc.css) with
        | mk b₂ s₂ =>
          cases b₂ with
          | true => rw [tryLocs_append_ok click s s₂ _ _ h₂]
          | false =>
            rw [tryLocs_append_fail click s s₂ _ _ h₂]
            exact ih s₂

lemma clickFramesGo_eq_framesSearch {σ : Type}
    (click : σ → Loc → Except Unit σ) (texts : List String) (fs : List σ) :
    clickFramesGo click texts fs = framesSearch click texts fs := by
  induction fs with
  | nil => simp [clickFramesGo, framesSearch]
  | cons f fr ih =>
    simp only [clickFramesGo, framesSearch]
    rw [clickFrameTexts_eq_tryLocs, ih]

lemma tryLocs_allFail {σ : Type} (click : σ → Loc → Except Unit σ) (s : σ)
    (ls : List Loc) (h : ∀ l, click s l = Except.error ()) :
    tryLocs click s ls = (false, s) := by
  induction ls with
  | nil => simp [tryLocs]
  | cons l lr ih => simp [tryLocs, try_click, h l, ih]

lemma clickFramesGo_allFail {σ : Type} (click : σ → Loc → Except Unit σ)
    (texts : List String) (fs : List σ)
    (h : ∀ f ∈ fs, ∀ l, click f l = Except.error ()) :
    clickFramesGo click texts fs = (false, fs) := by
  induction fs with
  | nil => simp [clickFramesGo]
  | cons f fr ih =>
    simp only [clickFramesGo]
    rw [clickFrameTexts_eq_tryLocs,
      tryLocs_allFail click f _ (h f (List.mem_cons_self f fr)),
      ih (fun g hg l => h g (List.mem_cons_of_mem f hg) l)]

/-! ## Claims about the fallback chain -/

/-- C1: when no locator matches anything in the main document or in any
frame (every click attempt fails), `click_text_global` returns `False`
without raising — its type is total, every fault having been absorbed — and
without mutating page state: the resulting page equals the input page. -/
theorem click_text_global_no_match {σ : Type}
    (click : σ → Loc → Except Unit σ) (p : GPage σ) (texts : List String)
    (hmain : ∀ l, click p.main l = Except.error ())
    (hframes : ∀ f ∈ p.childFrames, ∀ l, click f l = Except.error ()) :
    click_text_global click p texts = (false, p) := by
  unfold click_text_global
  rw [click_by_text_eq_tryLocs, tryLocs_allFail click p.main _ hmain,
    clickFramesGo_allFail click texts p.childFrames hframes]

/-- Witness for C1 at a concrete one-frame page where every click fails. -/
theorem click_text_global_no_match_witness :
    click_text_global
      (fun (_ : Unit) (_ : Loc) => (Except.error () : Except Unit Unit))
      ⟨(), [()]⟩ ["延長する"] = (false, ⟨(), [()]⟩) :=
  click_text_global_no_match _ _ _ (fun _ => rfl) (fun _ _ _ => rfl)

/-- Concrete click oracle for the C2 counterexample: page states are
numbers; the only locator that matches anything is the accessible-name
`link`-role lookup, and only inside the (sole) child frame, whose state is
`1`. -/
def linkOnlyClick : Nat → Loc → Except Unit Nat :=
  fun s l =>
    if s = 1 ∧ l = Loc.role "link" "延長" then Except.ok 2 else Except.error ()

/-- C2 counterexample: the frame-level search is *not* identical to the
main-document search.  With an element reachable only through the
`link`-role strategy inside a frame, the code (`click_text_global`) fails,
while the literal claim — the identical `click_by_text` search (roles
`button` and `link`) repeated inside the frame — would succeed. -/
theorem click_text_global_frames_not_identical :
    click_text_global linkOnlyClick ⟨0, [1]⟩ ["延長"] = (false, ⟨0, [1]⟩) ∧
      click_text_global_specIdentical linkOnlyClick ⟨0, [1]⟩ ["延長"] =
        (true, ⟨0, [2]⟩) := by
  constructor <;> decide

/-- C2 (amended): per label in list order, the strategies are tried in
priority order — role+name for `button` then `link`, the free-text match,
then the four attribute-pattern selectors — and only after every
label/strategy combination fails on the main document is the search repeated
inside every child frame in document order (the main frame itself is
skipped), except that inside frames the role+name strategy is attempted for
the `button` role only. -/
theorem click_text_global_order {σ : Type}
    (click : σ → Loc → Except Unit σ) (p : GPage σ) (texts : List String) :
    click_text_global click p texts =
      match tryLocs click p.main (chainLocs defaultRoles texts) with
      | (true, m') => (true, ⟨m', p.childFrames⟩)
      | (false, m₁) =>
        match framesSearch click texts p.childFrames with
        | (b, fs') => (b, ⟨m₁, fs'⟩) := by
  unfold click_text_global
  rw [click_by_text_eq_tryLocs, clickFramesGo_eq_framesSearch]

/-! ## Claims about authentication -/

/-- C3: on every path, both authentication strategies report success only
when `is_logged_in` held on the page state they return: cookie injection or
form submission alone never yields `True`. -/
theorem auth_requires_verification {σ : Type} (O : AuthOps σ) (cfg : Config)
    (s : σ) (b : Bool) (s' : σ) :
    (cookie_login O cfg s = Except.ok (b, s') → b = true →
      is_logged_in O.visible s' = true) ∧
    (password_login O cfg s = Except.ok (b, s') → b = true →
      is_logged_in O.visible s' = true) := by
  constructor
  · intro h hb
    subst hb
    simp only [cookie_login] at h
    repeat' split at h
    all_goals simp_all
  · intro h hb
    subst hb
    simp only [password_login] at h
    split at h
    · simp at h
    · split at h
      · simp at h
      · simp only [Except.ok.injEq, Prod.mk.injEq] at h
        obtain ⟨h1, h2⟩ := h
        subst h2
        exact h1

/-- Shared concrete oracle: every marker probe reports visible, navigation
advances a step counter, cookie injection succeeds, fields are never found,
clicks fail. -/
def okAuthOps : AuthOps Nat :=
  ⟨fun _ _ => Except.error (), fun _ _ => Except.ok true,
   fun s _ => Except.ok (s + 1), fun s _ => Except.ok s,
   fun _ _ _ => FillRes.noField, fun _ _ _ => FillRes.noField,
   fun s => s, fun s => s + 1⟩

/-- Configuration with both a cookie and credentials. -/
def cfgBoth : Config := ⟨"a@example.com", "pw", "sid=1", ""⟩

/-- Configuration with credentials only. -/
def cfgNoCookie : Config := ⟨"a@example.com", "pw", "", ""⟩

/-- Witness for C3: a cookie login returning `True` at state `1` and a
password login returning `True` at state `2`, both with the verification
check holding there. -/
theorem auth_requires_verification_witness :
    is_logged_in okAuthOps.visible 1 = true ∧
      is_logged_in okAuthOps.visible 2 = true :=
  ⟨(auth_requires_verification okAuthOps cfgBoth 0 true 1).1 rfl rfl,
   (auth_requires_verification okAuthOps cfgBoth 0 true 2).2 rfl rfl⟩

/-- C4: the session establisher attempts the cookie strategy first whenever
a cookie is configured — for any configuration, also one holding
credentials — and runs the credential strategy exactly when cookie login did
not verify as authenticated. -/
theorem establish_session_cookie_first {σ : Type} (O : AuthOps σ)
    (cfg : Config) (s : σ) :
    (∀ s', cookie_login O cfg s = Except.ok (true, s') →
      establish_session O cfg s = Except.ok (true, s')) ∧
    (∀ s', cookie_login O cfg s = Except.ok (false, s') →
      establish_session O cfg s = password_login O cfg s') := by
  constructor <;> intro s' h <;> unfold establish_session <;> rw [h]

/-- Witness for C4: with a cookie configured and verifying, the session is
the cookie session; with no cookie, the credential strategy runs. -/
theorem establish_session_cookie_first_witness :
    establish_session okAuthOps cfgBoth 0 = Except.ok (true, 1) ∧
      establish_session okAuthOps cfgNoCookie 0 =
        password_login okAuthOps cfgNoCookie 0 :=
  ⟨(establish_session_cookie_first okAuthOps cfgBoth 0).1 1 rfl,
   (establish_session_cookie_first okAuthOps cfgNoCookie 0).2 0 rfl⟩

/-- C10: with an empty email or an empty password, `password_login` returns
`False` immediately: no navigation, no fill, no interaction — the page state
comes back unchanged. -/
theorem password_login_empty_credentials {σ : Type} (O : AuthOps σ)
    (cfg : Config) (s : σ) (h : cfg.email = "" ∨ cfg.password = "") :
    password_login O cfg s = Except.ok (false, s) := by
  unfold password_login
  rw [if_pos h]

/-- Witness for C10 with an empty email. -/
theorem password_login_empty_credentials_witness :
    password_login okAuthOps ⟨"", "pw", "", ""⟩ 0 = Except.ok (false, 0) :=
  password_login_empty_credentials okAuthOps ⟨"", "pw", "", ""⟩ 0 (Or.inl rfl)

/-! ## Claims about cookie parsing -/

/-- Spec-side containment test: does the segment contain the character? -/
def hasChar (c : Char) : List Char → Bool
  | [] => false
  | x :: xs => if x = c then true else hasChar c xs

lemma breakAtChar_none_iff_hasChar (c : Char) (xs : List Char) :
    breakAtChar c xs = none ↔ hasChar c xs = false := by
  induction xs with
  | nil => simp [breakAtChar, hasChar]
  | cons x xr ih =>
    simp only [breakAtChar, hasChar]
    by_cases hx : x = c
    · simp [hx]
    · rw [if_neg hx, if_neg hx]
      cases hr : breakAtChar c xr with
      | none => simp [hr] at ih; simp [ih]
      | some p => simp [hr] at ih; simp [ih]

lemma parseCookieLoop_eq_filterMap (d : String) (items : List (List Char)) :
    parseCookieLoop d items = items.filterMap (parseCookieItem d) := by
  induction items with
  | nil => simp [parseCookieLoop]
  | cons it rest ih =>
    simp only [parseCookieLoop, List.filterMap_cons]
    cases h : parseCookieItem d it <;> simp [h, ih]

lemma parseCookieItem_isSome (d : String) (it : List Char) :
    (parseCookieItem d it).isSome = hasChar '=' it := by
  unfold parseCookieItem
  cases hr : breakAtChar '=' it with
  | none =>
    have := (breakAtChar_none_iff_hasChar '=' it).mp hr
    simp [this]
  | some p =>
    have : ¬ hasChar '=' it = false := by
      rw [← breakAtChar_none_iff_hasChar '=' it]
      simp [hr]
    simp only [Option.isSome]
    cases p with
    | mk n v => simp [Bool.not_eq_false] at this; simp [this]

lemma filterMap_parseCookieItem_length (d : String)
    (items : List (List Char)) :
    (items.filterMap (parseCookieItem d)).length =
      (items.filter (hasChar '=')).length := by
  induction items with
  | nil => simp
  | cons it rest ih =>
    simp only [List.filterMap_cons, List.filter_cons]
    cases h : parseCookieItem d it with
    | none =>
      have hh : hasChar '=' it = false := by
        rw [← parseCookieItem_isSome d it, h]; rfl
      simp [hh, ih]
    | some e =>
      have hh : hasChar '=' it = true := by
        rw [← parseCookieItem_isSome d it, h]; rfl
      simp [hh, ih]

/-- C5 (amended): the parser yields exactly one entry per segment (split on
`";"`, stripped) that is non-blank *and contains* `"="`, in order, each
entry carrying the fixed domain/path/flag fields; segments with no `"="`
are skipped, but a segment with an empty name (`"=v"`) or an empty value
(`"n="`) still yields an entry. -/
theorem parse_cookie_string_characterization (cs : String) (d : String) :
    parse_cookie_string cs d =
      ((((splitOnChar ';' cs.toList).map stripChars).filter
        (fun p => ¬ p.isEmpty)).filterMap (parseCookieItem d)) ∧
    (parse_cookie_string cs d).length =
      ((((splitOnChar ';' cs.toList).map stripChars).filter
        (fun p => ¬ p.isEmpty)).filter (hasChar '=')).length ∧
    ∀ e ∈ parse_cookie_string cs d,
      e.domain = d ∧ e.path = "/" ∧ e.httpOnly = false ∧ e.secure = true ∧
        e.sameSite = "Lax" := by
  refine ⟨parseCookieLoop_eq_filterMap d _, ?_, ?_⟩
  · rw [parse_cookie_string, parseCookieLoop_eq_filterMap,
      filterMap_parseCookieItem_length]
  · intro e he
    rw [parse_cookie_string, parseCookieLoop_eq_filterMap] at he
    obtain ⟨it, _, hit⟩ := List.mem_filterMap.mp he
    unfold parseCookieItem at hit
    cases hr : breakAtChar '=' it with
    | none => rw [hr] at hit; simp at hit
    | some p =>
      rw [hr] at hit
      cases p with
      | mk n v =>
        simp only [Option.some_inj] at hit
        subst hit
        exact ⟨rfl, rfl, rfl, rfl, rfl⟩

/-- Witness for C5 at a concrete well-formed cookie string. -/
theorem parse_cookie_string_characterization_witness :
    (⟨"a", "b", "d", "/", false, true, "Lax"⟩ : CookieEntry).domain = "d" ∧
      (⟨"a", "b", "d", "/", false, true, "Lax"⟩ : CookieEntry).path = "/" ∧
      (⟨"a", "b", "d", "/", false, true, "Lax"⟩ : CookieEntry).httpOnly = false ∧
      (⟨"a", "b", "d", "/", false, true, "Lax"⟩ : CookieEntry).secure = true ∧
      (⟨"a", "b", "d", "/", false, true, "Lax"⟩ : CookieEntry).sameSite = "Lax" :=
  (parse_cookie_string_characterization " a = b " "d").2.2 _ (by decide)

/-- C5 counterexample: a segment without a name (`"=secret"`) and one
without a value (`"a="`) are *not* discarded — each yields an entry (with
the empty side trimmed to the empty string). -/
theorem parse_cookie_string_keeps_nameless :
    parse_cookie_string "=secret; a=" "example.com" =
      [⟨"", "secret", "example.com", "/", false, true, "Lax"⟩,
       ⟨"a", "", "example.com", "/", false, true, "Lax"⟩] := by decide

/-! ## Claims about the outcome recorder -/

/-- C6: after `n` consecutive successful runs the log has exactly `n`
lines; each run appends exactly one line at the end, never modifying a
previously written line; and every line has the shape
`<timestamp> <zone-label> 成功` with the configured zone name, or `UTC`, as
the label. -/
theorem outcome_log_shape (T : Nat → TimeOracle) (tz : String) (n : Nat) :
    (runsLog T tz n).length = n ∧
    (∃ l, runsLog T tz (n + 1) = runsLog T tz n ++ [l]) ∧
    ∀ line ∈ runsLog T tz n, ∃ ts suffix,
      (suffix = tz ∨ suffix = "UTC") ∧
        line = ts ++ " " ++ suffix ++ " 成功" := by
  refine ⟨?_, ⟨_, rfl⟩, ?_⟩
  · induction n with
    | zero => rfl
    | succ m ih => simp [runsLog, write_success_md, ih]
  · induction n with
    | zero => intro line h; simp [runsLog] at h
    | succ m ih =>
      intro line h
      simp only [runsLog, write_success_md, List.mem_append,
        List.mem_singleton] at h
      rcases h with h | h
      · exact ih line h
      · subst h
        by_cases hz : (T m).zoneAvailable tz = true
        · exact ⟨(T m).nowIn tz, tz, Or.inl rfl, by simp [hz]⟩
        · refine ⟨(T m).nowUtc, "UTC", Or.inr rfl, ?_⟩
          simp only [Bool.not_eq_true] at hz
          simp [hz]

/-- A fixed-time oracle for the C6 witness. -/
def constTimeOracle : TimeOracle :=
  ⟨fun _ => true, fun _ => "2026-01-01 00:00:00", "2026-01-01 00:00:00"⟩

/-- Witness for C6: the single line of a one-run log is well-formed. -/
theorem outcome_log_shape_witness :
    ∃ ts suffix, (suffix = "Asia/Tokyo" ∨ suffix = "UTC") ∧
      "2026-01-01 00:00:00 Asia/Tokyo 成功" = ts ++ " " ++ suffix ++ " 成功" :=
  (outcome_log_shape (fun _ => constTimeOracle) "Asia/Tokyo" 1).2.2 _
    (by decide)

/-! ## Claims about the scheduling gate -/

/-- C7: with the override unset and the last entry within the minimum
interval, the run skips with no navigation; with the last entry older than
the minimum interval, the run proceeds to the wizard. -/
theorem scheduling_gate_policy (t now iv : Int) (ov : Bool) (w : Nat) :
    (ov = false → now - t < iv →
      run_with_gate (some t) now iv ov w = (GateDecision.skipTooSoon, 0)) ∧
    (iv < now - t →
      run_with_gate (some t) now iv ov w = (GateDecision.proceed, w)) := by
  constructor
  · intro hov hlt
    simp only [run_with_gate, scheduling_gate]
    rw [if_pos ⟨hov, hlt⟩]
  · intro hgt
    have hcond : ¬ (ov = false ∧ now - t < iv) := by
      intro hc
      exact absurd hc.2 (by omega)
    simp only [run_with_gate, scheduling_gate]
    rw [if_neg hcond]

/-- Witness for C7: an entry one hour inside the interval skips, an entry
past the interval proceeds. -/
theorem scheduling_gate_policy_witness :
    run_with_gate (some 0) 10 11 false 3 = (GateDecision.skipTooSoon, 0) ∧
      run_with_gate (some 0) 10 5 false 3 = (GateDecision.proceed, 3) :=
  ⟨(scheduling_gate_policy 0 10 11 false 3).1 rfl (by decide),
   (scheduling_gate_policy 0 10 5 false 3).2 (by decide)⟩

/-! ## Claims about the acknowledgment step -/

lemma ackBoxLoop_count_le {σ : Type} (O : AckOps σ) (is : List Nat) :
    ∀ (s : σ) (c : Nat), (ackBoxLoop O s c is).2 ≤ c + is.length := by
  induction is with
  | nil => intro s c; simp [ackBoxLoop]
  | cons i ir ih =>
    intro s c
    simp only [ackBoxLoop]
    cases h : ackBoxStep O s i with
    | some s' =>
      refine le_trans (ih s' (c + 1)) ?_
      simp [List.length_cons]
      omega
    | none =>
      refine le_trans (ih s c) ?_
      simp [List.length_cons]

lemma ackBoxStep_none_of_no_candidate {σ : Type} (O : AckOps σ)
    (h : ∀ s' i, ¬ (O.boxVisible s' i = Except.ok true ∧
      O.boxChecked s' i = Except.ok false)) (s : σ) (i : Nat) :
    ackBoxStep O s i = none := by
  unfold ackBoxStep
  cases hv : O.boxVisible s i with
  | error e => rfl
  | ok v =>
    dsimp only
    cases hc : O.boxChecked s i with
    | error e => rfl
    | ok c =>
      dsimp only
      have hn : ¬ (v = true ∧ c = false) := by
        rintro ⟨rfl, rfl⟩
        exact h s i ⟨hv, hc⟩
      rw [if_neg hn]

lemma ackBoxLoop_of_none {σ : Type} (O : AckOps σ)
    (h : ∀ s' i, ackBoxStep O s' i = none) (is : List Nat) :
    ∀ (s : σ) (c : Nat), ackBoxLoop O s c is = (s, c) := by
  induction is with
  | nil => intro s c; rfl
  | cons i ir ih =>
    intro s c
    simp only [ackBoxLoop, h s i]
    exact ih s c

lemma ackLabelPhase_allErr {σ : Type} (O : AckOps σ)
    (h : ∀ s' k, O.labelClick s' k = Except.error ()) (ks : List String) :
    ∀ s : σ, ackLabelPhase O s ks = s := by
  induction ks with
  | nil => intro s; rfl
  | cons k kr ih =>
    intro s
    simp only [ackLabelPhase, h s k]
    exact ih s

/-- C8: the acknowledgment step returns normally on every input — its type
absorbs every fault — clicks the agreement-keyword labels, and checks at most
5 checkboxes, each only when reported visible and unchecked: when no box is
visible-and-unchecked nothing is checked, and when every primitive raises the
page state comes back unchanged with a zero count. -/
theorem accept_required_checks_properties {σ : Type} (O : AckOps σ) (s : σ) :
    (accept_required_checks O s).2 ≤ 5 ∧
    (∀ (_ : ∀ s' i, ¬ (O.boxVisible s' i = Except.ok true ∧
        O.boxChecked s' i = Except.ok false)),
      (accept_required_checks O s).2 = 0) ∧
    (∀ (_ : ∀ s' k, O.labelClick s' k = Except.error ())
       (_ : ∀ s', O.boxCount s' = Except.error ()),
      accept_required_checks O s = (s, 0)) := by
  refine ⟨?_, ?_, ?_⟩
  · simp only [accept_required_checks]
    cases h : O.boxCount (ackLabelPhase O s ackKeywords) with
    | error e => simp
    | ok cnt =>
      dsimp only
      refine le_trans (ackBoxLoop_count_le O _ _ 0) ?_
      simp [List.length_range]
  · intro h
    simp only [accept_required_checks]
    cases hcount : O.boxCount (ackLabelPhase O s ackKeywords) with
    | error e => simp
    | ok cnt =>
      dsimp only
      rw [ackBoxLoop_of_none O (ackBoxStep_none_of_no_candidate O h) _ _ 0]
  · intro h₁ h₂
    simp only [accept_required_checks, ackLabelPhase_allErr O h₁ ackKeywords s,
      h₂ s]

/-- All-raising acknowledgment oracle for the C8 witness. -/
def errAckOps : AckOps Unit :=
  ⟨fun _ _ => Except.error (), fun _ => Except.error (),
   fun _ _ => Except.error (), fun _ _ => Except.error (),
   fun _ _ => Except.error ()⟩

/-- Witness for C8 at the all-raising oracle: the step still returns, with
nothing checked and the page unchanged. -/
theorem accept_required_checks_properties_witness :
    (accept_required_checks errAckOps ()).2 ≤ 5 ∧
      (accept_required_checks errAckOps ()).2 = 0 ∧
      accept_required_checks errAckOps () = ((), 0) :=
  ⟨(accept_required_checks_properties errAckOps ()).1,
   (accept_required_checks_properties errAckOps ()).2.1
     (fun _ _ hp => Except.noConfusion hp.1),
   (accept_required_checks_properties errAckOps ()).2.2
     (fun _ _ => rfl) (fun _ => rfl)⟩

/-! ## Claims about the management-entry step -/

lemma clickRowBtnGo_fail_state {σ : Type} (O : GmOps σ) (r : RowRef)
    (sels : List String) :
    ∀ (s s' : σ), clickRowBtnGo O s r sels = (false, s') → s' = s := by
  induction sels with
  | nil =>
    intro s s' h
    simp only [clickRowBtnGo, Prod.mk.injEq] at h
    exact h.2.symm
  | cons sel rest ih =>
    intro s s' h
    simp only [clickRowBtnGo] at h
    split at h
    · split at h
      · split at h
        · simp at h
        · simp only [Prod.mk.injEq] at h
          exact h.2.symm
      · exact ih s s' h
    · exact ih s s' h

lemma clickRowBtnGo_allError {σ : Type} (O : GmOps σ)
    (h : ∀ s' r sel, O.rowClick s' r sel = Except.error ()) (r : RowRef)
    (sels : List String) : ∀ s : σ, clickRowBtnGo O s r sels = (false, s) := by
  induction sels with
  | nil => intro s; rfl
  | cons sel rest ih =>
    intro s
    simp only [clickRowBtnGo]
    cases hq : O.rowQuery s r sel with
    | ok p =>
      cases p with
      | mk cnt vis =>
        dsimp only
        by_cases hc : 0 < cnt ∧ vis = true
        · rw [if_pos hc, h s r sel]
        · rw [if_neg hc]
          exact ih s
    | error e => exact ih s

lemma gmPagePhaseGo_allError {σ : Type} (O : GmOps σ)
    (h : ∀ s' sel, O.pageClick s' sel = Except.error ())
    (sels : List String) : ∀ s : σ, gmPagePhaseGo O s sels = (false, s) := by
  induction sels with
  | nil => intro s; rfl
  | cons sel rest ih =>
    intro s
    simp only [gmPagePhaseGo]
    cases hq : O.pageQuery s sel with
    | ok p =>
      cases p with
      | mk cnt vis =>
        dsimp only
        by_cases hc : 0 < cnt ∧ vis = true
        · rw [if_pos hc, h s sel]
          exact ih s
        · rw [if_neg hc]
          exact ih s
    | error e => exact ih s

lemma gmEscalateGo_allError {σ : Type} (O : GmOps σ)
    (h : ∀ s' r sel, O.rowClick s' r sel = Except.error ()) (is : List Nat) :
    ∀ s : σ, gmEscalateGo O s is = (false, s) := by
  induction is with
  | nil => intro s; rfl
  | cons i ir ih =>
    intro s
    simp only [gmEscalateGo, click_row_btn,
      clickRowBtnGo_allError O h (RowRef.nth i) rowBtnSelectors s]
    exact ih s

lemma gmFallback_allError {σ : Type} (O : GmOps σ)
    (hrow : ∀ s' r sel, O.rowClick s' r sel = Except.error ())
    (hpage : ∀ s' sel, O.pageClick s' sel = Except.error ()) (s : σ) :
    gmFallback O s = (false, s) := by
  simp only [gmFallback, gmPagePhase, gmPagePhaseGo_allError O hpage _ s,
    gmEscalate]
  cases hq : O.tbodyRowCount s with
  | ok cnt => exact gmEscalateGo_allError O hrow _ s
  | error e => rfl

lemma gmEscalateGo_true_iff {σ : Type} (O : GmOps σ) (is : List Nat) :
    ∀ s : σ, (gmEscalateGo O s is).1 = true ↔
      ∃ i ∈ is, (click_row_btn O s (RowRef.nth i)).1 = true := by
  induction is with
  | nil => intro s; simp [gmEscalateGo]
  | cons i ir ih =>
    intro s
    simp only [gmEscalateGo]
    cases hc : click_row_btn O s (RowRef.nth i) with
    | mk b s₁ =>
      cases b with
      | true =>
        constructor
        · intro _
          exact ⟨i, List.mem_cons_self i ir, by rw [hc]⟩
        · intro _
          rfl
      | false =>
        have hs : s₁ = s := clickRowBtnGo_fail_state O (RowRef.nth i) _ s s₁ hc
        subst hs
        dsimp only
        constructor
        · intro hx
          obtain ⟨j, hj, hcj⟩ := (ih s₁).mp hx
          exact ⟨j, List.mem_cons_of_mem i hj, hcj⟩
        · rintro ⟨j, hj, hcj⟩
          rcases List.mem_cons.mp hj with rfl | hj'
          · rw [hc] at hcj
            simp at hcj
          · exact (ih s₁).mpr ⟨j, hj', hcj⟩

/-- C9: the management-entry step clicks the configured target row first
when one matches; with no target (or no match) it runs the page-level
first-row selectors and then the escalation loop; when no action control
can be clicked anywhere it returns not-found (`False`) with the page
unchanged; and the escalation loop succeeds exactly when one of the first
`min(count, 10)` rows carries a clickable management control. -/
theorem open_game_management_policy {σ : Type} (O : GmOps σ) (cfg : Config)
    (s : σ) :
    (∀ r s', findTargetRow O s cfg.targetGame = some r →
      click_row_btn O s r = (true, s') →
      open_game_management O cfg s = (true, O.waitIdle s')) ∧
    (findTargetRow O s cfg.targetGame = none →
      open_game_management O cfg s = gmFallback O s) ∧
    (∀ (_ : ∀ s' r sel, O.rowClick s' r sel = Except.error ())
       (_ : ∀ s' sel, O.pageClick s' sel = Except.error ()),
      open_game_management O cfg s = (false, s)) ∧
    (∀ cnt, O.tbodyRowCount s = Except.ok cnt →
      ((gmEscalate O s).1 = true ↔
        ∃ i, i < min cnt 10 ∧
          (click_row_btn O s (RowRef.nth i)).1 = true)) := by
  refine ⟨?_, ?_, ?_, ?_⟩
  · intro r s' hfind hclick
    unfold open_game_management
    rw [hfind]
    dsimp only
    rw [hclick]
  · intro hfind
    unfold open_game_management
    rw [hfind]
  · intro hrow hpage
    unfold open_game_management
    cases hfind : findTargetRow O s cfg.targetGame with
    | some r =>
      dsimp only
      rw [show click_row_btn O s r = (false, s) from
        clickRowBtnGo_allError O hrow r rowBtnSelectors s]
      exact gmFallback_allError O hrow hpage s
    | none => exact gmFallback_allError O hrow hpage s
  · intro cnt hcnt
    unfold gmEscalate
    rw [hcnt]
    rw [gmEscalateGo_true_iff O (List.range (min cnt 10)) s]
    constructor
    · rintro ⟨i, hi, hci⟩
      exact ⟨i, List.mem_range.mp hi, hci⟩
    · rintro ⟨i, hi, hci⟩
      exact ⟨i, List.mem_range.mpr hi, hci⟩

/-- Concrete oracle for the C9 witness: the target row is matched and its
first selector clicks successfully. -/
def gmOpsTarget : GmOps Nat :=
  ⟨fun _ _ => Except.ok 1, fun _ _ => Except.ok 0,
   fun _ _ _ => Except.ok (1, true), fun s _ _ => Except.ok (s + 1),
   fun _ _ => Except.ok (0, false), fun _ _ => Except.error (),
   fun _ => Except.ok 3, fun s => s + 10⟩

/-- Concrete oracle for the C9 witness: every click raises, 12 rows. -/
def gmOpsErr : GmOps Nat :=
  ⟨fun _ _ => Except.ok 1, fun _ _ => Except.ok 1,
   fun _ _ _ => Except.ok (1, true), fun _ _ _ => Except.error (),
   fun _ _ => Except.ok (1, true), fun _ _ => Except.error (),
   fun _ => Except.ok 12, fun s => s + 10⟩

/-- Configuration with a target identifier. -/
def cfgTarget : Config := ⟨"", "", "", "waters"⟩

/-- Configuration with everything empty. -/
def cfgEmpty : Config := ⟨"", "", "", ""⟩

/-- Witness for C9: the target row wins when it is clickable; with no
target configured the fallback runs; with nothing clickable the step
returns not-found on the unchanged page, and the bounded escalation
characterization holds at 12 rows. -/
theorem open_game_management_policy_witness :
    open_game_management gmOpsTarget cfgTarget 0 = (true, 11) ∧
      open_game_management gmOpsTarget cfgEmpty 0 = gmFallback gmOpsTarget 0 ∧
      open_game_management gmOpsErr cfgTarget 0 = (false, 0) ∧
      ((gmEscalate gmOpsErr 0).1 = true ↔
        ∃ i, i < min 12 10 ∧
          (click_row_btn gmOpsErr 0 (RowRef.nth i)).1 = true) :=
  ⟨(open_game_management_policy gmOpsTarget cfgTarget 0).1
      RowRef.targetTbody 1 rfl rfl,
   (open_game_management_policy gmOpsTarget cfgEmpty 0).2.1 rfl,
   (open_game_management_policy gmOpsErr cfgTarget 0).2.2.1
      (fun _ _ _ => rfl) (fun _ _ => rfl),
   (open_game_management_policy gmOpsErr cfgTarget 0).2.2.2 12 rfl⟩

end XSAR
